import Mathlib

/-!
Shallow embedding of the vultisig analytics-dashboard ingestion core
(`vultisig-analytics/ingestors/{base,thorchain,mayachain,lifi}.py` and
`vultisig-analytics/database/connection.py`), together with theorems that
settle the specification claims about it.

Conventions of the embedding:
* Python floats are modelled as exact rationals (`ℚ`); the arithmetic the
  claims are about (division by powers of ten, `max`, comparisons) is exact
  in `ℚ`.
* Python dictionaries coming from provider JSON are modelled as structures
  whose fields carry the values the parsers read (missing fields are the
  documented defaults; list accesses that can raise `KeyError`/`IndexError`
  — and hence make `parse_swap` return `None` via its `try/except` — are
  modelled with `List.head?`/`Option.bind`).
* `str.isdigit` is modelled over ASCII strings (`Char.isDigit`), the
  character set provider memos and affiliate strings use.
* Wall-clock reads (`datetime.now`) are passed in explicitly as a `now`
  argument, network-derived prices (the Midgard RUNE price) as an argument
  of the parser.
-/

/-!
String primitives. The embedding uses its own structurally recursive
implementations over `String.data` (rather than the library's
position-based ones) so that every parser evaluation reduces inside the
kernel; they implement exactly the Python string operations the source
uses, over the ASCII strings providers emit.
-/

/-- Strip `sep` from the front of `l`, if it is a prefix. -/
def stripPre : List Char → List Char → Option (List Char)
  | [], l => some l
  | _ :: _, [] => none
  | c :: cs, d :: ds => if c = d then stripPre cs ds else none

/-- Fuelled worker for `py_split` (fuel bounds the number of consumed
characters, so `length l` fuel is always enough). -/
def splitOnFuel (sep : List Char) : Nat → List Char → List Char → List (List Char)
  | 0, l, acc => [acc.reverse ++ l]
  | fuel + 1, l, acc =>
    match l with
    | [] => [acc.reverse]
    | c :: rest =>
      match stripPre sep l with
      | some rem => acc.reverse :: splitOnFuel sep fuel rem []
      | none => splitOnFuel sep fuel rest (c :: acc)

/-- Python `s.split(sep)` for a nonempty separator (also the semantics of
`str.splitOn`): non-overlapping left-to-right matches, keeping empty
pieces. -/
def py_split (s sep : String) : List String :=
  (splitOnFuel sep.data s.data.length s.data []).map String.mk

/-- ASCII lower-casing of one character (Python `str.lower` on ASCII). -/
def asciiLower (c : Char) : Char :=
  if 'A' ≤ c ∧ c ≤ 'Z' then Char.ofNat (c.toNat + 32) else c

/-- Python `s.lower()` (ASCII). -/
def py_lower (s : String) : String :=
  String.mk (s.data.map asciiLower)

/-- Python's `str.strip` whitespace class (ASCII): space and `\t\n\v\f\r`. -/
def isPySpace (c : Char) : Bool :=
  c.toNat = 32 || (9 ≤ c.toNat && c.toNat ≤ 13)

/-- Python `s.strip()`. -/
def py_strip (s : String) : String :=
  String.mk (((s.data.dropWhile isPySpace).reverse.dropWhile isPySpace).reverse)

/-- Digits-only character list to `Nat` (the value `int` computes for a
string of ASCII digits). -/
def digitsToNat (l : List Char) : Nat :=
  l.foldl (fun n c => n * 10 + (c.toNat - 48)) 0

/-- Python `str.isdigit` for ASCII strings: nonempty and all digits. -/
def pyIsDigit (s : String) : Bool :=
  !s.data.isEmpty && s.data.all Char.isDigit

/-- Python `int(s)` on a string: strip surrounding whitespace, optional
sign, at least one digit; `none` models the `ValueError` path. -/
def py_int_of_string (s : String) : Option Int :=
  match (py_strip s).data with
  | [] => none
  | '-' :: ds =>
    if !ds.isEmpty && ds.all Char.isDigit then some (-(digitsToNat ds : Int)) else none
  | '+' :: ds =>
    if !ds.isEmpty && ds.all Char.isDigit then some ((digitsToNat ds : Int)) else none
  | ds => if ds.all Char.isDigit then some ((digitsToNat ds : Int)) else none

/-- Python `sub in s` (substring containment): splitting on `sub` yields at
least two pieces exactly when `sub` occurs in `s` (for nonempty `sub`). -/
def containsSub (s sub : String) : Bool :=
  2 ≤ (py_split s sub).length

namespace Ingest

/-- One entry of a Midgard `coins` array. -/
structure Coin where
  asset : String
  amount : ℚ
  deriving DecidableEq

/-- One entry of a Midgard `in`/`out` array. -/
structure TxItem where
  address : String
  txID : String
  coins : List Coin
  affiliate : Bool
  deriving DecidableEq

/-- The `metadata.swap` object of a Midgard action (fields the parsers read;
missing fields are the parsers' defaults: empty strings, `0`). -/
structure SwapMeta where
  affiliateAddress : String
  memo : String
  affiliateFee : String
  inPriceUSD : ℚ
  outPriceUSD : ℚ
  swapSlip : ℚ
  deriving DecidableEq

/-- A raw Midgard swap action, as read by the THORChain/MayaChain parsers. -/
structure RawSwap where
  date : String
  inList : List TxItem
  outList : List TxItem
  meta : SwapMeta
  deriving DecidableEq

/-- The canonical swap record (the fields of the parsers' returned dict that
the claims are about). -/
structure Swap where
  timestamp : Int
  source : String
  tx_hash : String
  user_address : String
  in_asset : String
  in_amount : ℚ
  in_amount_usd : ℚ
  out_asset : String
  out_amount : ℚ
  out_amount_usd : ℚ
  total_fee_usd : ℚ
  affiliate_fee_usd : ℚ
  affiliate_addresses : List String
  affiliate_fees_bps : List Nat
  in_price_usd : ℚ
  out_price_usd : ℚ
  deriving DecidableEq

/-- Result of `_extract_vultisig_affiliate`: the matched platform code, its
basis points, and the exact affiliate entry from the address string. -/
structure VInfo where
  code : String
  bps : Nat
  address : String
  deriving DecidableEq

/-- `config.VULTISIG_AFFILIATES` / the parsers' `vultisig_codes` allow-list. -/
def vultisig_codes : List String := ["vi", "va", "v0"]

/-- The first index (and lowered/stripped code) in the affiliate list whose
entry, lowercased and stripped, is one of the platform codes; mirrors the
`for i, aff in enumerate(affiliates)` loop of `_extract_vultisig_affiliate`. -/
def findVultisigIdx : Nat → List String → Option (Nat × String)
  | _, [] => none
  | i, a :: rest =>
    let al := py_strip (py_lower a)
    if vultisig_codes.contains al then some (i, al) else findVultisigIdx (i + 1) rest

/-- Parse one memo bps field (`"10/35"`, `"35"`, …) exactly as the source:
split on `/` keeping digit-only pieces, or a single digit-only value. -/
def parse_bps_part (bps_part : String) : List Nat :=
  if bps_part.data.contains '/' then
    (py_split bps_part "/").filterMap fun x =>
      if pyIsDigit x then some (digitsToNat x.data) else none
  else if pyIsDigit bps_part then [digitsToNat bps_part.data] else []

/-- The bps list `_extract_vultisig_affiliate` reads from the memo: only when
the memo has at least six `:`-separated fields is its last field parsed. -/
def memo_bps_values (memo : String) : List Nat :=
  if memo ≠ "" then
    let parts := py_split memo ":"
    if 6 ≤ parts.length then parse_bps_part (parts.getLastD "") else []
  else []

/-- `_extract_vultisig_affiliate` (identical in `thorchain.py` and
`mayachain.py`): find the platform code in the `/`-separated affiliate
string, then resolve its bps from the memo by index, first-element fallback,
or `0`. -/
def extract_vultisig_affiliate (affiliate_address memo : String) : Option VInfo :=
  if affiliate_address = "" then none
  else
    let affiliates := py_split affiliate_address "/"
    match findVultisigIdx 0 affiliates with
    | none => none
    | some ic =>
      let bps_values := memo_bps_values memo
      let bps :=
        if bps_values ≠ [] ∧ ic.1 < bps_values.length then bps_values.getD ic.1 0
        else bps_values.headD 0
      some ⟨ic.2, bps, affiliates.getD ic.1 ""⟩

/-- The parsers' parsing of the `affiliateFee` metadata string into a bps
list (`[int(f) for f in affiliate_fee_str.split('/') if f.isdigit()]`). -/
def parse_fees_bps (affiliate_fee_str : String) : List Nat :=
  if affiliate_fee_str = "" then []
  else (py_split affiliate_fee_str "/").filterMap fun f =>
    if pyIsDigit f then some (digitsToNat f.data) else none

/-- `_find_vultisig_affiliate_output`: the first output flagged `affiliate`. -/
def find_affiliate_output (outputs : List TxItem) : Option TxItem :=
  outputs.find? (·.affiliate)

/-- `_find_swap_output`: first a non-affiliate output carrying a coin of a
different asset than the input; then any non-affiliate output; then the
first output. -/
def find_swap_output (outputs : List TxItem) (in_asset : String) : Option TxItem :=
  match outputs.find? (fun o =>
      !o.coins.isEmpty && !o.affiliate &&
        ((o.coins.head?.map Coin.asset).getD "" != in_asset)) with
  | some o => some o
  | none =>
    match outputs.find? (fun o => !o.affiliate) with
    | some o => some o
    | none => outputs.head?

/-- The `(out_asset, out_amount)` pair the parsers derive from
`_find_swap_output` (empty asset and `0` when nothing usable is found). -/
def swap_out_pair (outputs : List TxItem) (in_asset : String) : String × ℚ :=
  match find_swap_output outputs in_asset with
  | some o =>
    match o.coins with
    | c :: _ => (c.asset, c.amount)
    | [] => ("", 0)
  | none => ("", 0)

/-- The price-sanity reconciliation shared by both AMM parsers: when both
USD legs are positive, the provider slippage is under `500` bps and the legs
diverge by more than `10%`, overwrite the higher leg with the lower one. -/
def reconcile (in_usd out_usd slip : ℚ) : ℚ × ℚ :=
  if 0 < in_usd ∧ 0 < out_usd ∧ slip < 500 then
    if 1 / 10 < |in_usd - out_usd| / max in_usd out_usd then
      if in_usd < out_usd then (in_usd, in_usd) else (out_usd, out_usd)
    else (in_usd, out_usd)
  else (in_usd, out_usd)

/-- The affiliate lists `thorchain.py` stores (lines 221-228): addresses are
the platform-code entries of the affiliate list (falling back to the matched
code), bps are the provider's `affiliateFee` values truncated to that length
(falling back to the resolved bps). -/
def thor_store_lists (affiliateAddress affiliateFee : String) (v : VInfo) :
    List String × List Nat :=
  let affiliate_addresses :=
    if affiliateAddress = "" then [] else py_split affiliateAddress "/"
  let affiliate_fees_bps := parse_fees_bps affiliateFee
  let vultisig_affiliates :=
    affiliate_addresses.filter fun a => vultisig_codes.contains (py_lower a)
  (if vultisig_affiliates = [] then [v.code] else vultisig_affiliates,
   if vultisig_affiliates ≠ [] ∧ affiliate_fees_bps ≠ [] then
     affiliate_fees_bps.take vultisig_affiliates.length
   else [v.bps])

/-- The affiliate lists `mayachain.py` stores (lines 241-244): all affiliate
entries and all provider bps values, each falling back to the resolved
platform entry. -/
def maya_store_lists (affiliateAddress affiliateFee : String) (v : VInfo) :
    List String × List Nat :=
  let affiliate_addresses :=
    if affiliateAddress = "" then [] else py_split affiliateAddress "/"
  let affiliate_fees_bps := parse_fees_bps affiliateFee
  (if affiliate_addresses = [] then [v.code] else affiliate_addresses,
   if affiliate_fees_bps = [] then [v.bps] else affiliate_fees_bps)

namespace BaseIngestor

/-- `BaseIngestor.parse_timestamp`: nanosecond strings (length `> 10`) are
floor-divided to seconds; anything `int()` rejects falls back to the current
wall clock, passed in as `now`. -/
def parse_timestamp (now : Int) (timestamp_str : String) : Int :=
  match py_int_of_string timestamp_str with
  | none => now
  | some n => if 10 < timestamp_str.data.length then n.fdiv 1000000000 else n

end BaseIngestor

namespace THORChainIngestor

/-- The body of `THORChainIngestor.parse_swap` after all fallible accesses
have succeeded (`rune_price_usd` is the RUNE price the parser resolves from
Midgard or from the pool fallback). -/
def build_swap (now : Int) (rune_price_usd : ℚ) (raw : RawSwap)
    (in_data : TxItem) (in_coin : Coin) (vinfo : VInfo) (fee_coin : Coin) : Swap :=
  let in_asset := in_coin.asset
  let in_amount := in_coin.amount
  let fee_asset := fee_coin.asset
  let fee_amount := fee_coin.amount
  let op := swap_out_pair raw.outList in_asset
  let in_amount_usd0 := in_amount / 100000000 * raw.meta.inPriceUSD
  let out_amount_usd0 := op.2 / 100000000 * raw.meta.outPriceUSD
  let r := reconcile in_amount_usd0 out_amount_usd0 raw.meta.swapSlip
  let affiliate_fee_usd :=
    if fee_asset = "THOR.RUNE" then fee_amount / 100000000 * rune_price_usd
    else if fee_asset = in_asset then fee_amount / 100000000 * raw.meta.inPriceUSD
    else if fee_asset = op.1 then fee_amount / 100000000 * raw.meta.outPriceUSD
    else (vinfo.bps : ℚ) / 10000 * r.1
  { timestamp := BaseIngestor.parse_timestamp now raw.date
    source := "thorchain"
    tx_hash := in_data.txID
    user_address := in_data.address
    in_asset := in_asset
    in_amount := in_amount
    in_amount_usd := r.1
    out_asset := fee_asset
    out_amount := fee_amount
    out_amount_usd := r.2
    total_fee_usd := max 0 (r.1 - r.2)
    affiliate_fee_usd := affiliate_fee_usd
    affiliate_addresses :=
      (thor_store_lists raw.meta.affiliateAddress raw.meta.affiliateFee vinfo).1
    affiliate_fees_bps :=
      (thor_store_lists raw.meta.affiliateAddress raw.meta.affiliateFee vinfo).2
    in_price_usd := raw.meta.inPriceUSD
    out_price_usd := raw.meta.outPriceUSD }

/-- `THORChainIngestor.parse_swap`: `none` models every `return None` path
(no platform affiliate match, no affiliate fee output, and the `try/except`
around missing `in`/`coins` entries). -/
def parse_swap (now : Int) (rune_price_usd : ℚ) (raw : RawSwap) : Option Swap :=
  raw.inList.head?.bind fun in_data =>
  in_data.coins.head?.bind fun in_coin =>
  (extract_vultisig_affiliate raw.meta.affiliateAddress raw.meta.memo).bind fun vinfo =>
  (find_affiliate_output raw.outList).bind fun fee_data =>
  fee_data.coins.head?.bind fun fee_coin =>
  some (build_swap now rune_price_usd raw in_data in_coin vinfo fee_coin)

end THORChainIngestor

namespace MayaChainIngestor

/-- `mayachain.py`'s local `safe_float`: clamp to `±1e30` (overflow guard for
`NUMERIC(38,18)`), keeping the sign convention of the source. -/
def safe_float (x : ℚ) : ℚ :=
  if 0 < x then min x (10 ^ 30) else max x (-(10 ^ 30))

/-- MayaChain's per-asset base-unit scaling: `1e10` for assets containing
`CACAO` or `MAYA`, `1e8` otherwise. -/
def asset_decimals (asset : String) : ℚ :=
  if containsSub asset "CACAO" || containsSub asset "MAYA" then 10000000000 else 100000000

/-- The body of `MayaChainIngestor.parse_swap` after all fallible accesses
have succeeded. Unlike THORChain, the affiliate fee USD is always the bps
percentage of the input-USD leg. -/
def build_swap (now : Int) (raw : RawSwap)
    (in_data : TxItem) (in_coin : Coin) (vinfo : VInfo) (fee_coin : Coin) : Swap :=
  let in_asset := in_coin.asset
  let in_amount := safe_float in_coin.amount
  let fee_asset := fee_coin.asset
  let fee_amount := safe_float fee_coin.amount
  let op := swap_out_pair raw.outList in_asset
  let in_amount_usd0 := in_amount / asset_decimals in_asset * safe_float raw.meta.inPriceUSD
  let out_amount_usd0 :=
    safe_float op.2 / asset_decimals op.1 * safe_float raw.meta.outPriceUSD
  let r := reconcile in_amount_usd0 out_amount_usd0 (safe_float raw.meta.swapSlip)
  { timestamp := BaseIngestor.parse_timestamp now raw.date
    source := "mayachain"
    tx_hash := in_data.txID
    user_address := in_data.address
    in_asset := in_asset
    in_amount := in_amount
    in_amount_usd := r.1
    out_asset := fee_asset
    out_amount := fee_amount
    out_amount_usd := r.2
    total_fee_usd := max 0 (r.1 - r.2)
    affiliate_fee_usd := (vinfo.bps : ℚ) / 10000 * r.1
    affiliate_addresses :=
      (maya_store_lists raw.meta.affiliateAddress raw.meta.affiliateFee vinfo).1
    affiliate_fees_bps :=
      (maya_store_lists raw.meta.affiliateAddress raw.meta.affiliateFee vinfo).2
    in_price_usd := safe_float raw.meta.inPriceUSD
    out_price_usd := safe_float raw.meta.outPriceUSD }

/-- `MayaChainIngestor.parse_swap`. -/
def parse_swap (now : Int) (raw : RawSwap) : Option Swap :=
  raw.inList.head?.bind fun in_data =>
  in_data.coins.head?.bind fun in_coin =>
  (extract_vultisig_affiliate raw.meta.affiliateAddress raw.meta.memo).bind fun vinfo =>
  (find_affiliate_output raw.outList).bind fun fee_data =>
  fee_data.coins.head?.bind fun fee_coin =>
  some (build_swap now raw in_data in_coin vinfo fee_coin)

end MayaChainIngestor

namespace LiFiIngestor

/-- `lifi.py`'s local `safe_float`: clamp to `±99999999999.99999999`
(overflow guard for `NUMERIC(20,8)`). -/
def safe_float (x : ℚ) : ℚ :=
  if 0 < x then min x (9999999999999999999 / 100000000)
  else max x (-(9999999999999999999 / 100000000))

/-- A token object of a LiFi transfer leg (`decimals` via `safe_int`,
defaulting to `18`). -/
structure LifiToken where
  symbol : String
  chainId : String
  decimals : Int
  priceUSD : ℚ
  deriving DecidableEq

/-- One `includedSteps` entry of the sending leg. -/
structure LifiStep where
  tool : String
  fromAmount : ℚ
  toAmount : ℚ
  deriving DecidableEq

/-- One transfer leg (`sending` / `receiving`). -/
structure LifiLeg where
  timestamp : Int
  txHash : String
  token : LifiToken
  amount : ℚ
  amountUSD : ℚ
  gasAmountUSD : ℚ
  includedSteps : List LifiStep
  deriving DecidableEq

/-- A raw LiFi transfer, as read by `LiFiIngestor.parse_swap`. -/
structure LifiRaw where
  transactionId : String
  fromAddress : String
  toAddress : String
  sending : LifiLeg
  receiving : LifiLeg
  integrator : String
  deriving DecidableEq

/-- `LiFiIngestor.parse_swap`, which decimal-adjusts both legs by the token's
own `decimals` and sums explicit `feeCollection` steps into the affiliate
fee. -/
def parse_swap (now : Int) (raw : LifiRaw) : Option Swap :=
  let timestamp := if raw.sending.timestamp ≠ 0 then raw.sending.timestamp else now
  let in_asset := raw.sending.token.symbol ++ "-" ++ raw.sending.token.chainId
  let sending_amount_raw := safe_float raw.sending.amount
  let sending_decimals := raw.sending.token.decimals
  let in_amount :=
    if 0 < sending_decimals then sending_amount_raw / 10 ^ sending_decimals.toNat
    else sending_amount_raw
  let out_asset := raw.receiving.token.symbol ++ "-" ++ raw.receiving.token.chainId
  let receiving_amount_raw := safe_float raw.receiving.amount
  let receiving_decimals := raw.receiving.token.decimals
  let out_amount :=
    if 0 < receiving_decimals then receiving_amount_raw / 10 ^ receiving_decimals.toNat
    else receiving_amount_raw
  let in_amount_usd := safe_float raw.sending.amountUSD
  let out_amount_usd := safe_float raw.receiving.amountUSD
  let network_fee_usd :=
    safe_float raw.sending.gasAmountUSD + safe_float raw.receiving.gasAmountUSD
  let token_price := safe_float raw.sending.token.priceUSD
  let affiliate_fee_usd := raw.sending.includedSteps.foldl
    (fun acc step =>
      if step.tool = "feeCollection" then
        if 0 < token_price ∧ 0 < sending_decimals then
          acc + (safe_float step.fromAmount - safe_float step.toAmount)
            / 10 ^ sending_decimals.toNat * token_price
        else acc
      else acc) 0
  let liquidity_fee_usd := max 0 (in_amount_usd - out_amount_usd - affiliate_fee_usd)
  some
    { timestamp := timestamp
      source := "lifi"
      tx_hash := raw.transactionId
      user_address := raw.fromAddress
      in_asset := in_asset
      in_amount := in_amount
      in_amount_usd := in_amount_usd
      out_asset := out_asset
      out_amount := out_amount
      out_amount_usd := out_amount_usd
      total_fee_usd := network_fee_usd + affiliate_fee_usd + liquidity_fee_usd
      affiliate_fee_usd := affiliate_fee_usd
      affiliate_addresses := []
      affiliate_fees_bps := []
      in_price_usd := safe_float raw.sending.token.priceUSD
      out_price_usd := safe_float raw.receiving.token.priceUSD }

end LiFiIngestor

namespace DatabaseManager

/-- One row of the `swaps` table: the three natural-key columns, with all
remaining columns abstracted into `rest` (enough to observe that a duplicate
insert overwrites nothing). -/
structure Row where
  timestamp : Int
  tx_hash : String
  source : String
  rest : String
  deriving DecidableEq

/-- The `(timestamp, tx_hash, source)` conflict key of the `swaps` table. -/
def natKey (r : Row) : Int × String × String := (r.timestamp, r.tx_hash, r.source)

/-- One `INSERT ... ON CONFLICT (timestamp, tx_hash, source) DO NOTHING`:
append the row if its key is fresh (statement rowcount `1`), otherwise leave
the table untouched (rowcount `0`). -/
def insert_one (table : List Row) (r : Row) : List Row × Nat :=
  if table.any fun x => natKey x = natKey r then (table, 0) else (table ++ [r], 1)

/-- `DatabaseManager.insert_swaps`: `cursor.executemany` of the insert above
over the batch; psycopg2 accumulates the per-statement rowcounts, so the
returned count is the total number of rows inserted. -/
def insert_swaps (table : List Row) (batch : List Row) : List Row × Nat :=
  match batch with
  | [] => (table, 0)
  | r :: rs =>
    let p := insert_one table r
    let q := insert_swaps p.1 rs
    (q.1, p.2 + q.2)

end DatabaseManager

namespace BaseIngestor

/-- `config.MAX_RETRIES`. -/
def MAX_RETRIES : Nat := 5

/-- `config.REQUEST_TIMEOUT` (seconds), the timeout passed to every
`session.get` call. -/
def REQUEST_TIMEOUT : ℚ := 120

/-- The outcome of one attempted `session.get`, supplied by the environment:
a read timeout, or a response with a status code (and optional
`Retry-After` header). Status codes below 400 pass `raise_for_status` and
deliver a body. -/
inductive Resp where
  | timeout
  | status (code : Nat) (retryAfter : Option Nat)
  deriving DecidableEq

/-- Observable actions of `make_request`: issuing a GET with its per-attempt
timeout, and sleeping. -/
inductive Ev where
  | httpGet (timeoutSec : ℚ)
  | sleep (secs : ℚ)
  deriving DecidableEq

/-- How `make_request` ends. `exhausted` is an artifact of the embedding
(the supplied response list ran out before the function returned). -/
inductive Outcome where
  | success
  | error (msg : String)
  | exhausted
  deriving DecidableEq

/-- The `while retries < config.MAX_RETRIES` loop of
`BaseIngestor.make_request`, consuming one environment response per attempt
and emitting the trace of GETs and sleeps. `vana` is `'vanaheimex' in url`,
`base` the per-source `base_delay`. -/
def make_request_loop (vana : Bool) (base : ℚ) :
    List Resp → Nat → List Ev × Outcome
  | resps, retries =>
    if MAX_RETRIES ≤ retries then ([], .error "Max retries exceeded") else
    match resps with
    | [] => ([], .exhausted)
    | r :: rest =>
      match r with
      | .timeout =>
        let delay := base * 2 ^ (retries + 1)
        let k := make_request_loop vana base rest (retries + 1)
        (.httpGet REQUEST_TIMEOUT :: .sleep delay :: k.1, k.2)
      | .status code retryAfter =>
        if code = 429 then
          let ra : ℚ := (retryAfter.getD 5 : Nat)
          let ra := if vana then max ra 10 else ra
          if MAX_RETRIES ≤ retries + 1 then
            ([.httpGet REQUEST_TIMEOUT, .sleep ra], .error "Max rate limit retries exceeded")
          else
            let k := make_request_loop vana base rest (retries + 1)
            (.httpGet REQUEST_TIMEOUT :: .sleep ra :: k.1, k.2)
        else if code = 502 ∨ code = 503 ∨ code = 504 then
          if 2 ≤ retries + 1 then ([.httpGet REQUEST_TIMEOUT], .error "Server error")
          else
            let k := make_request_loop vana base rest (retries + 1)
            (.httpGet REQUEST_TIMEOUT :: .sleep (base * 2) :: k.1, k.2)
        else if 400 ≤ code then
          ([.httpGet REQUEST_TIMEOUT], .error "HTTPError")
        else if 0 < base then ([.httpGet REQUEST_TIMEOUT, .sleep base], .success)
        else ([.httpGet REQUEST_TIMEOUT], .success)

/-- `BaseIngestor.make_request` (retry counter starts at zero). -/
def make_request (vana : Bool) (base : ℚ) (resps : List Resp) : List Ev × Outcome :=
  make_request_loop vana base resps 0

/-- The per-attempt timeouts of a trace, in order. -/
def request_timeouts (evs : List Ev) : List ℚ :=
  evs.filterMap fun e =>
    match e with
    | .httpGet t => some t
    | .sleep _ => none

end BaseIngestor

namespace THORChainIngestor

/-- The `for i, endpoint in enumerate(self.api_endpoints)` loop of
`THORChainIngestor.fetch_data`, over the remaining endpoint indices: returns
the list of indices actually tried, the winning index (if any), and the
final `current_endpoint_index`. `up i` says whether endpoint `i` answers
this call. On success the winner is stored in `current_endpoint_index`; on
failure the loop just moves on and the stored index is untouched. -/
def fetch_loop (up : Nat → Bool) : List Nat → Nat → List Nat × Option Nat × Nat
  | [], cur => ([], none, cur)
  | i :: rest, cur =>
    if up i then ([i], some i, i)
    else
      let k := fetch_loop up rest cur
      (i :: k.1, k.2.1, k.2.2)

/-- `THORChainIngestor.fetch_data` over `n` endpoint candidates with stored
index `cur`: the candidates are always tried from the first one (`cur` does
not influence the order); `none` as middle component models the final
`raise` after every endpoint failed. -/
def fetch_data (n cur : Nat) (up : Nat → Bool) : List Nat × Option Nat × Nat :=
  fetch_loop up (List.range n) cur

end THORChainIngestor

namespace MayaChainIngestor

/-- The `while attempts < total_endpoints` loop of
`MayaChainIngestor.fetch_data`: starts at the stored
`current_endpoint_index`, advances it modulo `n` past each failing endpoint,
and leaves it on the winner on success. Returns tried indices, winner, and
final stored index. -/
def fetch_loop (up : Nat → Bool) (n : Nat) : Nat → Nat → List Nat × Option Nat × Nat
  | cur, 0 => ([], none, cur)
  | cur, attempts + 1 =>
    if up cur then ([cur], some cur, cur)
    else
      let k := fetch_loop up n ((cur + 1) % n) attempts
      (cur :: k.1, k.2.1, k.2.2)

/-- `MayaChainIngestor.fetch_data` over `n` endpoints with stored index
`cur`. -/
def fetch_data (n cur : Nat) (up : Nat → Bool) : List Nat × Option Nat × Nat :=
  fetch_loop up n cur n

end MayaChainIngestor

/-!
Concrete provider events used as evaluation inputs by the witnesses and
counterexamples below.
-/

/-- A THORChain Midgard swap: 1 BTC (1e8 base units) at $1000 swapped to
10 ETH at $99.50, with a 0.5 RUNE affiliate fee output and a single `vi`
affiliate at 35 bps. -/
def rawThor : RawSwap :=
  { date := "1700000000000000000"
    inList := [{ address := "thor1user", txID := "TX1",
                 coins := [{ asset := "BTC.BTC", amount := 100000000 }],
                 affiliate := false }]
    outList :=
      [{ address := "thor1aff", txID := "TXF",
         coins := [{ asset := "THOR.RUNE", amount := 50000000 }], affiliate := true },
       { address := "thor1out", txID := "TXO",
         coins := [{ asset := "ETH.ETH", amount := 1000000000 }], affiliate := false }]
    meta := { affiliateAddress := "vi", memo := "=:ETH.ETH:0xabc:0:vi:35",
              affiliateFee := "35", inPriceUSD := 1000, outPriceUSD := 199 / 2,
              swapSlip := 30 } }

/-- The `in[0]` item of `rawThor`. -/
def inDataThor : TxItem :=
  { address := "thor1user", txID := "TX1",
    coins := [{ asset := "BTC.BTC", amount := 100000000 }], affiliate := false }

/-- The input coin of `rawThor`. -/
def inCoinThor : Coin := { asset := "BTC.BTC", amount := 100000000 }

/-- The affiliate info extracted from `rawThor`. -/
def vinfoThor : VInfo := { code := "vi", bps := 35, address := "vi" }

/-- The affiliate fee coin of `rawThor`. -/
def feeCoinThor : Coin := { asset := "THOR.RUNE", amount := 50000000 }

/-- A MayaChain Midgard swap with a dual affiliate `"VALT/vi"`, memo bps
list `"10/35"`, but a single-valued `affiliateFee` string `"35"`: 1000
CACAO (1e13 base units) at $1 in, 995 ETH-side USD out, and a 100 CACAO
(1e12 base units) affiliate fee output. -/
def rawMaya : RawSwap :=
  { date := "1700000000000000000"
    inList := [{ address := "maya1user", txID := "MTX1",
                 coins := [{ asset := "MAYA.CACAO", amount := 10000000000000 }],
                 affiliate := false }]
    outList :=
      [{ address := "maya1aff", txID := "MTXF",
         coins := [{ asset := "MAYA.CACAO", amount := 1000000000000 }], affiliate := true },
       { address := "maya1out", txID := "MTXO",
         coins := [{ asset := "ETH.ETH", amount := 99500000000 }], affiliate := false }]
    meta := { affiliateAddress := "VALT/vi", memo := "=:e:0xabc:0:VALT/vi:10/35",
              affiliateFee := "35", inPriceUSD := 1, outPriceUSD := 1,
              swapSlip := 30 } }

/-- The `in[0]` item of `rawMaya`. -/
def inDataMaya : TxItem :=
  { address := "maya1user", txID := "MTX1",
    coins := [{ asset := "MAYA.CACAO", amount := 10000000000000 }], affiliate := false }

/-- The input coin of `rawMaya`. -/
def inCoinMaya : Coin := { asset := "MAYA.CACAO", amount := 10000000000000 }

/-- The affiliate info extracted from `rawMaya` (bps resolved at index 1). -/
def vinfoMaya : VInfo := { code := "vi", bps := 35, address := "vi" }

/-- The affiliate fee coin of `rawMaya`. -/
def feeCoinMaya : Coin := { asset := "MAYA.CACAO", amount := 1000000000000 }

/-- The parsed swap of `rawThor`, written as the parser body applied to its
decomposed inputs (RUNE price `2`, wall clock `0`). -/
def swapThor : Swap :=
  THORChainIngestor.build_swap 0 2 rawThor inDataThor inCoinThor vinfoThor feeCoinThor

/-- The parsed swap of `rawMaya` (wall clock `0`). -/
def swapMaya : Swap :=
  MayaChainIngestor.build_swap 0 rawMaya inDataMaya inCoinMaya vinfoMaya feeCoinMaya

/-- A LiFi transfer: 2.5 ETH (decimals 18) in, 4000 USDC (decimals 6) out. -/
def rawLifi : LiFiIngestor.LifiRaw :=
  { transactionId := "0xlifi1"
    fromAddress := "0xuser"
    toAddress := "0xuser2"
    sending :=
      { timestamp := 1700000100, txHash := "0xsend",
        token := { symbol := "ETH", chainId := "1", decimals := 18, priceUSD := 1600 },
        amount := 2500000000000000000, amountUSD := 4000, gasAmountUSD := 3,
        includedSteps := [{ tool := "feeCollection",
                            fromAmount := 2500000000000000000,
                            toAmount := 2475000000000000000 }] }
    receiving :=
      { timestamp := 1700000200, txHash := "0xrecv",
        token := { symbol := "USDC", chainId := "10", decimals := 6, priceUSD := 1 },
        amount := 3950000000, amountUSD := 3950, gasAmountUSD := 1,
        includedSteps := [] }
    integrator := "vultisig-ios" }

/-- A batch of three swap rows, two of them sharing a natural key. -/
def rowA : DatabaseManager.Row :=
  { timestamp := 1700000000, tx_hash := "TX1", source := "thorchain", rest := "a" }

/-- A row with the same natural key as `rowA` but different payload. -/
def rowA' : DatabaseManager.Row :=
  { timestamp := 1700000000, tx_hash := "TX1", source := "thorchain", rest := "b" }

/-- A row with a distinct natural key. -/
def rowB : DatabaseManager.Row :=
  { timestamp := 1700000001, tx_hash := "TX2", source := "mayachain", rest := "c" }

/-- The example batch for the persistence witness. -/
def batchW : List DatabaseManager.Row := [rowA, rowA', rowB]

/-!
Helper lemmas about the embedded parsers.
-/

/-- Decomposition of a successful `THORChainIngestor.parse_swap`. -/
theorem thor_parse_some {now : Int} {rp : ℚ} {raw : RawSwap} {s : Swap}
    (h : THORChainIngestor.parse_swap now rp raw = some s) :
    ∃ a b v f fc, raw.inList.head? = some a ∧ a.coins.head? = some b ∧
      extract_vultisig_affiliate raw.meta.affiliateAddress raw.meta.memo = some v ∧
      find_affiliate_output raw.outList = some f ∧ f.coins.head? = some fc ∧
      s = THORChainIngestor.build_swap now rp raw a b v fc := by
  simp only [THORChainIngestor.parse_swap, Option.bind_eq_some, Option.some.injEq] at h
  obtain ⟨a, ha, b, hb, v, hv, f, hf, fc, hfc, hs⟩ := h
  exact ⟨a, b, v, f, fc, ha, hb, hv, hf, hfc, hs.symm⟩

/-- Decomposition of a successful `MayaChainIngestor.parse_swap`. -/
theorem maya_parse_some {now : Int} {raw : RawSwap} {s : Swap}
    (h : MayaChainIngestor.parse_swap now raw = some s) :
    ∃ a b v f fc, raw.inList.head? = some a ∧ a.coins.head? = some b ∧
      extract_vultisig_affiliate raw.meta.affiliateAddress raw.meta.memo = some v ∧
      find_affiliate_output raw.outList = some f ∧ f.coins.head? = some fc ∧
      s = MayaChainIngestor.build_swap now raw a b v fc := by
  simp only [MayaChainIngestor.parse_swap, Option.bind_eq_some, Option.some.injEq] at h
  obtain ⟨a, ha, b, hb, v, hv, f, hf, fc, hfc, hs⟩ := h
  exact ⟨a, b, v, f, fc, ha, hb, hv, hf, hfc, hs.symm⟩

/-!
Claim theorems.
-/

/-- C1: the price-sanity reconciliation shared by the two AMM parsers.
When both computed USD legs are positive, overwriting with the lower value
happens exactly when they diverge by more than 10% while the
provider-reported slippage is below 500 bps; otherwise both values are left
unchanged. In particular `(100, 80)` at 200 bps becomes `(80, 80)`, while
at 600 bps it stays `(100, 80)`. -/
theorem C1_reconciliation :
    (∀ in_usd out_usd slip : ℚ, 0 < in_usd → 0 < out_usd →
      ((1 / 10 < |in_usd - out_usd| / max in_usd out_usd ∧ slip < 500) →
        reconcile in_usd out_usd slip = (min in_usd out_usd, min in_usd out_usd)) ∧
      ((500 ≤ slip ∨ |in_usd - out_usd| / max in_usd out_usd ≤ 1 / 10) →
        reconcile in_usd out_usd slip = (in_usd, out_usd))) ∧
    reconcile 100 80 200 = (80, 80) ∧ reconcile 100 80 600 = (100, 80) := by
  refine ⟨fun iu ou slip h0 h1 => ⟨fun hd => ?_, fun hc => ?_⟩, ?_, ?_⟩
  · unfold reconcile
    rw [if_pos ⟨h0, h1, hd.2⟩, if_pos hd.1]
    by_cases hlt : iu < ou
    · rw [if_pos hlt, min_eq_left hlt.le]
    · rw [if_neg hlt, min_eq_right (not_lt.mp hlt)]
  · unfold reconcile
    rcases hc with hs | hd
    · rw [if_neg (fun hcon => absurd hcon.2.2 (not_lt.mpr hs))]
    · by_cases hOuter : 0 < iu ∧ 0 < ou ∧ slip < 500
      · rw [if_pos hOuter, if_neg (not_lt.mpr hd)]
      · rw [if_neg hOuter]
  · have h20 : |(100 : ℚ) - 80| = 20 := by norm_num
    have hmax : max (100 : ℚ) 80 = 100 := max_eq_left (by norm_num)
    unfold reconcile
    rw [if_pos ⟨by norm_num, by norm_num, by norm_num⟩,
      if_pos (by rw [h20, hmax]; norm_num), if_neg (by norm_num)]
  · unfold reconcile
    rw [if_neg (fun hcon => absurd hcon.2.2 (by norm_num))]

/-- Witness for C1 at the boundary example from the spec. -/
theorem C1_reconciliation_witness :
    (0 : ℚ) < 100 ∧ (0 : ℚ) < 80 ∧
    ((1 : ℚ) / 10 < |(100 : ℚ) - 80| / max 100 80 ∧ (200 : ℚ) < 500) ∧
    reconcile 100 80 200 = (min 100 80, min 100 80) := by
  have h0 : (0 : ℚ) < 100 := by norm_num
  have h1 : (0 : ℚ) < 80 := by norm_num
  have hd : (1 : ℚ) / 10 < |(100 : ℚ) - 80| / max 100 80 ∧ (200 : ℚ) < 500 := by
    constructor
    · rw [show |(100 : ℚ) - 80| = 20 by norm_num, max_eq_left (by norm_num : (80 : ℚ) ≤ 100)]
      norm_num
    · norm_num
  exact ⟨h0, h1, hd, (C1_reconciliation.1 100 80 200 h0 h1).1 hd⟩

/-- C4: for every swap either AMM parser returns, the stored total fee is
`max 0 (in_amount_usd - out_amount_usd)` over the stored (post-
reconciliation) USD legs, hence never negative. -/
theorem C4_total_fee :
    (∀ (now : Int) (rp : ℚ) (raw : RawSwap) (s : Swap),
      THORChainIngestor.parse_swap now rp raw = some s →
      s.total_fee_usd = max 0 (s.in_amount_usd - s.out_amount_usd) ∧ 0 ≤ s.total_fee_usd) ∧
    (∀ (now : Int) (raw : RawSwap) (s : Swap),
      MayaChainIngestor.parse_swap now raw = some s →
      s.total_fee_usd = max 0 (s.in_amount_usd - s.out_amount_usd) ∧ 0 ≤ s.total_fee_usd) := by
  constructor
  · intro now rp raw s h
    obtain ⟨a, b, v, f, fc, -, -, -, -, -, hs⟩ := thor_parse_some h
    subst hs
    exact ⟨rfl, le_max_left 0 _⟩
  · intro now raw s h
    obtain ⟨a, b, v, f, fc, -, -, -, -, -, hs⟩ := maya_parse_some h
    subst hs
    exact ⟨rfl, le_max_left 0 _⟩

/-- Witness for C4 on the concrete THORChain event `rawThor`. -/
theorem C4_total_fee_witness :
    THORChainIngestor.parse_swap 0 2 rawThor = some swapThor ∧
    swapThor.total_fee_usd = max 0 (swapThor.in_amount_usd - swapThor.out_amount_usd) ∧
    0 ≤ swapThor.total_fee_usd := by
  have hp : THORChainIngestor.parse_swap 0 2 rawThor = some swapThor := by rfl
  exact ⟨hp, C4_total_fee.1 0 2 rawThor swapThor hp⟩

/-- C10: any timestamp input rejected by `int()` does not raise; the parser
returns the current wall clock instead, so the resulting timestamp — part of
the dedup natural key — depends on when the event is parsed rather than on
the event itself. -/
theorem C10_timestamp_fallback :
    ∀ (now now2 : Int) (s : String), py_int_of_string s = none →
      BaseIngestor.parse_timestamp now s = now ∧
      (now ≠ now2 →
        BaseIngestor.parse_timestamp now s ≠ BaseIngestor.parse_timestamp now2 s) := by
  intro now now2 s h
  have h1 : BaseIngestor.parse_timestamp now s = now := by
    simp [BaseIngestor.parse_timestamp, h]
  have h2 : BaseIngestor.parse_timestamp now2 s = now2 := by
    simp [BaseIngestor.parse_timestamp, h]
  exact ⟨h1, fun hne => by rw [h1, h2]; exact hne⟩

/-- Witness for C10 on a malformed date field. -/
theorem C10_timestamp_fallback_witness :
    py_int_of_string "not-a-date" = none ∧
    BaseIngestor.parse_timestamp 12345 "not-a-date" = 12345 :=
  ⟨by decide, (C10_timestamp_fallback 12345 0 "not-a-date" (by decide)).1⟩

/-- `splitOnFuel` never returns the empty list. -/
theorem splitOnFuel_ne_nil (sep : List Char) :
    ∀ (fuel : Nat) (l acc : List Char), splitOnFuel sep fuel l acc ≠ [] := by
  intro fuel
  induction fuel with
  | zero => intro l acc; simp [splitOnFuel]
  | succ n ih =>
    intro l acc
    match l with
    | [] => simp [splitOnFuel]
    | c :: rest =>
      simp only [splitOnFuel]
      match stripPre sep (c :: rest) with
      | some rem => simp
      | none => exact ih rest (c :: acc)

/-- `py_split` never returns the empty list. -/
theorem py_split_ne_nil (s sep : String) : py_split s sep ≠ [] := by
  simp only [py_split, ne_eq, List.map_eq_nil_iff]
  exact splitOnFuel_ne_nil _ _ _ _

/-- What a successful `findVultisigIdx` guarantees: the code is on the
allow-list and sits, lowercased and stripped, at the reported index. -/
theorem findVultisigIdx_spec :
    ∀ (l : List String) (k i : Nat) (c : String), findVultisigIdx k l = some (i, c) →
      c ∈ vultisig_codes ∧ k ≤ i ∧ i - k < l.length ∧
      py_strip (py_lower (l.getD (i - k) "")) = c := by
  intro l
  induction l with
  | nil => intro k i c h; simp [findVultisigIdx] at h
  | cons a rest ih =>
    intro k i c h
    simp only [findVultisigIdx] at h
    by_cases hc : vultisig_codes.contains (py_strip (py_lower a))
    · rw [if_pos hc] at h
      simp only [Option.some.injEq, Prod.mk.injEq] at h
      obtain ⟨hik, hcc⟩ := h
      subst hik
      subst hcc
      have hmem : py_strip (py_lower a) ∈ vultisig_codes := by
        simpa [List.contains] using hc
      exact ⟨hmem, le_refl _, by simp, by simp⟩
    · rw [if_neg hc] at h
      obtain ⟨hmem, hk, hlen, hget⟩ := ih (k + 1) i c h
      have hki : k + 1 ≤ i := hk
      refine ⟨hmem, le_trans (Nat.le_succ k) hki, ?_, ?_⟩
      · simp only [List.length_cons]
        omega
      · have hik : i - k = (i - (k + 1)) + 1 := by omega
        rw [hik, List.getD_cons_succ]
        exact hget

/-- What a successful `extract_vultisig_affiliate` guarantees, in terms of
the matched index and the memo bps list. -/
theorem extract_spec {aff memo : String} {v : VInfo}
    (h : extract_vultisig_affiliate aff memo = some v) :
    aff ≠ "" ∧ ∃ i, findVultisigIdx 0 (py_split aff "/") = some (i, v.code) ∧
      v.bps = (if memo_bps_values memo ≠ [] ∧ i < (memo_bps_values memo).length
               then (memo_bps_values memo).getD i 0
               else (memo_bps_values memo).headD 0) ∧
      v.address = (py_split aff "/").getD i "" := by
  by_cases haff : aff = ""
  · simp [extract_vultisig_affiliate, haff] at h
  · refine ⟨haff, ?_⟩
    simp only [extract_vultisig_affiliate, if_neg haff] at h
    match hfi : findVultisigIdx 0 (py_split aff "/") with
    | none => rw [hfi] at h; simp at h
    | some ic =>
      rw [hfi] at h
      obtain rfl := Option.some.inj h
      exact ⟨ic.1, rfl, rfl, rfl⟩

/-- Platform codes are fixed points of stripping. -/
theorem code_strip_fix {c : String} (hc : c ∈ vultisig_codes) : py_strip c = c := by
  simp only [vultisig_codes, List.mem_cons, List.not_mem_nil, or_false] at hc
  rcases hc with rfl | rfl | rfl <;> decide

/-- Platform codes are fixed points of lowercasing. -/
theorem code_lower_fix {c : String} (hc : c ∈ vultisig_codes) : py_lower c = c := by
  simp only [vultisig_codes, List.mem_cons, List.not_mem_nil, or_false] at hc
  rcases hc with rfl | rfl | rfl <;> decide
/-- C2 fails as stated: on `rawMaya` (affiliate string `"VALT/vi"`, provider
`affiliateFee` string `"35"`) MayaChain's parser returns a record storing two
affiliate addresses but only one bps entry, so the two stored lists have
different lengths. -/
theorem C2_parity_cex :
    MayaChainIngestor.parse_swap 0 rawMaya = some swapMaya ∧
    swapMaya.affiliate_addresses = ["VALT", "vi"] ∧
    swapMaya.affiliate_fees_bps = [35] ∧
    swapMaya.affiliate_addresses.length ≠ swapMaya.affiliate_fees_bps.length :=
  ⟨by rfl, by decide, by decide, by decide⟩

/-- Nonemptiness, platform-entry membership and the length relation for the
THORChain affiliate store. -/
theorem thor_store_spec (affA affF : String) (v : VInfo)
    (hvcode : v.code ∈ vultisig_codes) :
    (thor_store_lists affA affF v).1 ≠ [] ∧ (thor_store_lists affA affF v).2 ≠ [] ∧
    (∃ a ∈ (thor_store_lists affA affF v).1, py_strip (py_lower a) ∈ vultisig_codes) ∧
    (thor_store_lists affA affF v).2.length ≤ (thor_store_lists affA affF v).1.length := by
  simp only [thor_store_lists]
  set VA := (if affA = "" then [] else py_split affA "/").filter
      (fun a => vultisig_codes.contains (py_lower a)) with hVA
  set FB := parse_fees_bps affF with hFB
  by_cases hva : VA = []
  · rw [if_pos hva, if_neg (by simp [hva])]
    exact ⟨by simp, by simp,
      ⟨v.code, List.mem_singleton_self _,
        by rw [code_lower_fix hvcode, code_strip_fix hvcode]; exact hvcode⟩,
      by simp⟩
  · rw [if_neg hva]
    have hvapos : 0 < VA.length := List.length_pos.mpr hva
    obtain ⟨a0, ha0⟩ := List.exists_mem_of_ne_nil VA hva
    have ha0' : a0 ∈ (if affA = "" then [] else py_split affA "/").filter
        (fun a => vultisig_codes.contains (py_lower a)) := hVA ▸ ha0
    have ha0c : py_lower a0 ∈ vultisig_codes := by
      simpa [List.contains] using (List.mem_filter.mp ha0').2
    have hmem : ∃ a ∈ VA, py_strip (py_lower a) ∈ vultisig_codes :=
      ⟨a0, ha0, by rw [code_strip_fix ha0c]; exact ha0c⟩
    by_cases hfb : FB = []
    · rw [if_neg (by simp [hfb])]
      exact ⟨hva, by simp, hmem, by simpa using hvapos⟩
    · rw [if_pos ⟨hva, hfb⟩]
      have hfbpos : 0 < FB.length := List.length_pos.mpr hfb
      refine ⟨hva, ?_, hmem, ?_⟩
      · rw [← List.length_pos, List.length_take]
        exact lt_min hvapos hfbpos
      · rw [List.length_take]
        exact min_le_left _ _

/-- A list element read through `getD` in bounds is a member. -/
theorem getD_mem_of_lt {α : Type} (l : List α) (n : Nat) (d : α) (h : n < l.length) :
    l.getD n d ∈ l := by
  rw [List.getD_eq_getElem l d h]
  exact List.getElem_mem h

/-- Nonemptiness, platform-entry membership and the conditional length
parity for the MayaChain affiliate store. -/
theorem maya_store_spec (affA affF : String) (v : VInfo) (i : Nat)
    (haff : affA ≠ "")
    (hfi : findVultisigIdx 0 (py_split affA "/") = some (i, v.code)) :
    (maya_store_lists affA affF v).1 ≠ [] ∧ (maya_store_lists affA affF v).2 ≠ [] ∧
    (∃ a ∈ (maya_store_lists affA affF v).1, py_strip (py_lower a) ∈ vultisig_codes) ∧
    ((parse_fees_bps affF).length = (py_split affA "/").length →
      (maya_store_lists affA affF v).2.length = (maya_store_lists affA affF v).1.length) := by
  simp only [maya_store_lists]
  rw [if_neg haff]
  have hsp : py_split affA "/" ≠ [] := py_split_ne_nil _ _
  rw [if_neg hsp]
  obtain ⟨hcmem, -, hlen, hget⟩ := findVultisigIdx_spec _ 0 i v.code hfi
  have hmem : ∃ a ∈ py_split affA "/", py_strip (py_lower a) ∈ vultisig_codes :=
    ⟨(py_split affA "/").getD (i - 0) "",
     getD_mem_of_lt _ _ _ hlen, by rw [hget]; exact hcmem⟩
  by_cases hfb : parse_fees_bps affF = []
  · rw [if_pos hfb]
    refine ⟨hsp, by simp, hmem, fun hl => ?_⟩
    exfalso
    rw [hfb, List.length_nil] at hl
    exact hsp (List.length_eq_zero.mp hl.symm)
  · rw [if_neg hfb]
    exact ⟨hsp, hfb, hmem, fun hl => hl⟩

/-- C2 amended: both stored lists are always nonempty and the stored address
list always contains an entry that is a platform code once lowercased and
stripped; for THORChain the stored bps list is never longer than the
stored address list, and for MayaChain the two lists have equal length
whenever the provider's `affiliateFee` string yields one bps value per
affiliate entry — but the unconditional length equality of the original
claim does not hold (`C2_parity_cex`). -/
theorem C2_parity_amended :
    (∀ (now : Int) (rp : ℚ) (raw : RawSwap) (s : Swap),
      THORChainIngestor.parse_swap now rp raw = some s →
      s.affiliate_addresses ≠ [] ∧ s.affiliate_fees_bps ≠ [] ∧
      (∃ a ∈ s.affiliate_addresses, py_strip (py_lower a) ∈ vultisig_codes) ∧
      s.affiliate_fees_bps.length ≤ s.affiliate_addresses.length) ∧
    (∀ (now : Int) (raw : RawSwap) (s : Swap),
      MayaChainIngestor.parse_swap now raw = some s →
      s.affiliate_addresses ≠ [] ∧ s.affiliate_fees_bps ≠ [] ∧
      (∃ a ∈ s.affiliate_addresses, py_strip (py_lower a) ∈ vultisig_codes) ∧
      ((parse_fees_bps raw.meta.affiliateFee).length =
          (py_split raw.meta.affiliateAddress "/").length →
        s.affiliate_fees_bps.length = s.affiliate_addresses.length)) := by
  constructor
  · intro now rp raw s h
    obtain ⟨a, b, v, f, fc, -, -, hv, -, -, hs⟩ := thor_parse_some h
    obtain ⟨-, i, hfi, -, -⟩ := extract_spec hv
    have hvcode : v.code ∈ vultisig_codes := (findVultisigIdx_spec _ 0 i v.code hfi).1
    subst hs
    exact thor_store_spec raw.meta.affiliateAddress raw.meta.affiliateFee v hvcode
  · intro now raw s h
    obtain ⟨a, b, v, f, fc, -, -, hv, -, -, hs⟩ := maya_parse_some h
    obtain ⟨haff, i, hfi, -, -⟩ := extract_spec hv
    subst hs
    exact maya_store_spec raw.meta.affiliateAddress raw.meta.affiliateFee v i haff hfi

/-- Witness for the amended C2 on the concrete THORChain event. -/
theorem C2_parity_amended_witness :
    THORChainIngestor.parse_swap 0 2 rawThor = some swapThor ∧
    swapThor.affiliate_addresses ≠ [] ∧ swapThor.affiliate_fees_bps ≠ [] ∧
    swapThor.affiliate_fees_bps.length ≤ swapThor.affiliate_addresses.length := by
  have hp : THORChainIngestor.parse_swap 0 2 rawThor = some swapThor := by rfl
  have h := C2_parity_amended.1 0 2 rawThor swapThor hp
  exact ⟨hp, h.1, h.2.1, h.2.2.2⟩

/-- C3 fails as stated: with affiliate string `"EXTREF/vi"` (platform code at
index 1) and a memo whose final `:`-field `"10/35"` encodes the bps list
`[10, 35]` — more than one element — the function resolves the platform bps
to `0`, not to the element `35` at index 1, because the memo has fewer than
six `:`-separated fields and its bps part is then never read. -/
theorem C3_bps_index_cex :
    findVultisigIdx 0 (py_split "EXTREF/vi" "/") = some (1, "vi") ∧
    parse_bps_part ((py_split "a:b:10/35" ":").getLastD "") = [10, 35] ∧
    extract_vultisig_affiliate "EXTREF/vi" "a:b:10/35" =
      some { code := "vi", bps := 0, address := "vi" } ∧
    (0 : Nat) ≠ 35 := by
  refine ⟨by decide, by decide, by decide, by decide⟩

/-- C3 amended: for memos with at least six `:`-separated fields (the memo
shape whose last field carries the bps list), `_extract_vultisig_affiliate`
resolves the platform bps to the element at the matched affiliate index when
the parsed bps list is long enough, falls back to the list's first element
when it is shorter, resolves `0` when no bps value parses — and always
returns a result rather than raising; memos with fewer fields always resolve
`0` (their bps list is empty, see `C3_bps_index_cex`). -/
theorem C3_bps_index_amended :
    ∀ (aff memo : String) (i : Nat) (c : String),
      findVultisigIdx 0 (py_split aff "/") = some (i, c) → aff ≠ "" →
      ∃ v, extract_vultisig_affiliate aff memo = some v ∧ v.code = c ∧
        (i < (memo_bps_values memo).length →
          v.bps = (memo_bps_values memo).getD i 0) ∧
        (memo_bps_values memo ≠ [] → (memo_bps_values memo).length ≤ i →
          v.bps = (memo_bps_values memo).headD 0) ∧
        (memo_bps_values memo = [] → v.bps = 0) := by
  intro aff memo i c hfi haff
  have hex : extract_vultisig_affiliate aff memo =
      some ⟨c,
        if memo_bps_values memo ≠ [] ∧ i < (memo_bps_values memo).length then
          (memo_bps_values memo).getD i 0
        else (memo_bps_values memo).headD 0,
        (py_split aff "/").getD i ""⟩ := by
    simp only [extract_vultisig_affiliate, if_neg haff, hfi]
  refine ⟨_, hex, rfl, ?_, ?_, ?_⟩
  · intro hlt
    have hne : memo_bps_values memo ≠ [] := by
      intro hnil
      rw [hnil] at hlt
      simp at hlt
    exact if_pos ⟨hne, hlt⟩
  · intro hne hge
    exact if_neg fun hcon => absurd hcon.2 (Nat.not_lt.mpr hge)
  · intro hnil
    show (if _ ∧ _ then _ else _) = 0
    rw [if_neg fun hcon => absurd hnil hcon.1, hnil, List.headD_nil]

/-- Witness for the amended C3 on a six-field memo with bps list `10/35` and
the platform code at index 1: the resolved bps is the index-1 element `35`,
not the first element `10`. -/
theorem C3_bps_index_amended_witness :
    findVultisigIdx 0 (py_split "EXTREF/vi" "/") = some (1, "vi") ∧
    Option.map VInfo.bps
      (extract_vultisig_affiliate "EXTREF/vi" "=:e:0xabc:0:EXTREF/vi:10/35") = some 35 := by
  obtain ⟨v, hv, -, h1, -, -⟩ :=
    C3_bps_index_amended "EXTREF/vi" "=:e:0xabc:0:EXTREF/vi:10/35" 1 "vi"
      (by decide) (by decide)
  refine ⟨by decide, ?_⟩
  rw [hv, Option.map_some', h1 (by decide)]
  decide
/-- A key clash against the stored table, as the `ON CONFLICT` target sees
it. -/
theorem insert_one_clash {t : List DatabaseManager.Row} {r : DatabaseManager.Row}
    (h : ∃ x ∈ t, DatabaseManager.natKey x = DatabaseManager.natKey r) :
    DatabaseManager.insert_one t r = (t, 0) := by
  unfold DatabaseManager.insert_one
  rw [if_pos (by simpa using h)]

/-- A fresh key is appended with statement rowcount `1`. -/
theorem insert_one_fresh {t : List DatabaseManager.Row} {r : DatabaseManager.Row}
    (h : ¬ ∃ x ∈ t, DatabaseManager.natKey x = DatabaseManager.natKey r) :
    DatabaseManager.insert_one t r = (t ++ [r], 1) := by
  unfold DatabaseManager.insert_one
  rw [if_neg (by simpa using h)]

/-- Rows already stored survive any later batch. -/
theorem insert_swaps_mem :
    ∀ (b t : List DatabaseManager.Row) (x : DatabaseManager.Row),
      x ∈ t → x ∈ (DatabaseManager.insert_swaps t b).1 := by
  intro b
  induction b with
  | nil => intro t x hx; simpa [DatabaseManager.insert_swaps] using hx
  | cons r rs ih =>
    intro t x hx
    simp only [DatabaseManager.insert_swaps]
    by_cases hk : ∃ y ∈ t, DatabaseManager.natKey y = DatabaseManager.natKey r
    · rw [insert_one_clash hk]
      exact ih t x hx
    · rw [insert_one_fresh hk]
      exact ih (t ++ [r]) x (List.mem_append_left _ hx)

/-- A batch whose keys are all already stored inserts nothing and leaves the
table untouched. -/
theorem insert_swaps_no_new :
    ∀ (b t : List DatabaseManager.Row),
      (∀ r ∈ b, ∃ x ∈ t, DatabaseManager.natKey x = DatabaseManager.natKey r) →
      DatabaseManager.insert_swaps t b = (t, 0) := by
  intro b
  induction b with
  | nil => intro t _; rfl
  | cons r rs ih =>
    intro t h
    have h1 := insert_one_clash (h r (List.mem_cons_self r rs))
    have h2 := ih t fun x hx => h x (List.mem_cons_of_mem r hx)
    simp [DatabaseManager.insert_swaps, h1, h2]

/-- The inductive core of the persistence contract. -/
theorem insert_swaps_aux :
    ∀ (b t : List DatabaseManager.Row), (t.map DatabaseManager.natKey).Nodup →
      ((DatabaseManager.insert_swaps t b).1.map DatabaseManager.natKey).Nodup ∧
      (DatabaseManager.insert_swaps t b).1.take t.length = t ∧
      (DatabaseManager.insert_swaps t b).1.length =
        t.length + (DatabaseManager.insert_swaps t b).2 ∧
      (∀ r ∈ b, ∃ x ∈ (DatabaseManager.insert_swaps t b).1,
        DatabaseManager.natKey x = DatabaseManager.natKey r) := by
  intro b
  induction b with
  | nil =>
    intro t hnd
    refine ⟨hnd, List.take_length t, by simp [DatabaseManager.insert_swaps], by simp⟩
  | cons r rs ih =>
    intro t hnd
    by_cases hk : ∃ x ∈ t, DatabaseManager.natKey x = DatabaseManager.natKey r
    · have h1 := insert_one_clash hk
      obtain ⟨ihn, iht, ihl, ihm⟩ := ih t hnd
      simp only [DatabaseManager.insert_swaps, h1]
      refine ⟨ihn, iht, by simpa using ihl, ?_⟩
      intro r2 hr2
      rcases List.mem_cons.mp hr2 with rfl | hr2
      · obtain ⟨x, hx, hxk⟩ := hk
        exact ⟨x, insert_swaps_mem rs t x hx, hxk⟩
      · exact ihm r2 hr2
    · have h1 := insert_one_fresh hk
      have hnd2 : ((t ++ [r]).map DatabaseManager.natKey).Nodup := by
        rw [List.map_append]
        rw [List.nodup_append]
        refine ⟨hnd, by simp, ?_⟩
        intro k hkmem
        simp only [List.map_cons, List.map_nil, List.mem_singleton]
        intro hkr
        obtain ⟨x, hx, hxk⟩ := List.mem_map.mp hkmem
        exact hk ⟨x, hx, by rw [hxk]; exact hkr⟩
      obtain ⟨ihn, iht, ihl, ihm⟩ := ih (t ++ [r]) hnd2
      simp only [DatabaseManager.insert_swaps, h1]
      have hlen1 : (t ++ [r]).length = t.length + 1 := by simp
      refine ⟨ihn, ?_, ?_, ?_⟩
      · have h2 : (DatabaseManager.insert_swaps (t ++ [r]) rs).1.take t.length =
            ((DatabaseManager.insert_swaps (t ++ [r]) rs).1.take
              (t ++ [r]).length).take t.length := by
          rw [List.take_take, min_eq_left (by rw [hlen1]; exact Nat.le_succ _)]
        rw [h2, iht]
        exact List.take_left t [r]
      · rw [ihl, hlen1]
        omega
      · intro r2 hr2
        rcases List.mem_cons.mp hr2 with rfl | hr2
        · exact ⟨r2, insert_swaps_mem rs (t ++ [r2]) r2
            (List.mem_append_right t (List.mem_singleton_self r2)), rfl⟩
        · exact ihm r2 hr2

/-- C5: over a table whose natural keys are unique, `insert_swaps` appends
exactly the batch records with fresh `(timestamp, tx_hash, source)` keys
without touching any stored row, keeps keys unique (at most one row per
key no matter how often an event is resubmitted), returns the number of
rows actually inserted, and a second call with the identical batch returns
zero and leaves the table unchanged. -/
theorem C5_upsert_dedup :
    ∀ (b t : List DatabaseManager.Row), (t.map DatabaseManager.natKey).Nodup →
      ((DatabaseManager.insert_swaps t b).1.map DatabaseManager.natKey).Nodup ∧
      (DatabaseManager.insert_swaps t b).1.take t.length = t ∧
      (DatabaseManager.insert_swaps t b).1.length =
        t.length + (DatabaseManager.insert_swaps t b).2 ∧
      (∀ r ∈ b, ∃ x ∈ (DatabaseManager.insert_swaps t b).1,
        DatabaseManager.natKey x = DatabaseManager.natKey r) ∧
      DatabaseManager.insert_swaps (DatabaseManager.insert_swaps t b).1 b =
        ((DatabaseManager.insert_swaps t b).1, 0) := by
  intro b t hnd
  obtain ⟨h1, h2, h3, h4⟩ := insert_swaps_aux b t hnd
  exact ⟨h1, h2, h3, h4, insert_swaps_no_new b _ h4⟩

/-- Witness for C5 on a batch holding an intra-batch key duplicate: two rows
insert, the re-submitted batch inserts zero. -/
theorem C5_upsert_dedup_witness :
    (([] : List DatabaseManager.Row).map DatabaseManager.natKey).Nodup ∧
    (DatabaseManager.insert_swaps [] batchW).2 = 2 ∧
    (DatabaseManager.insert_swaps [] batchW).1.length =
      ([] : List DatabaseManager.Row).length + (DatabaseManager.insert_swaps [] batchW).2 ∧
    DatabaseManager.insert_swaps (DatabaseManager.insert_swaps [] batchW).1 batchW =
      ((DatabaseManager.insert_swaps [] batchW).1, 0) := by
  have h := C5_upsert_dedup batchW [] (by decide)
  exact ⟨by decide, by decide, h.2.2.1, h.2.2.2.2⟩

/-- C6 fails as stated: MayaChain never derives the affiliate fee from the
actual transferred fee amount. On `rawMaya` the affiliate output carries
`1e12` CACAO base units worth $100 at the settlement price, yet the stored
`affiliate_fee_usd` is the bps percentage `35/10000 * 1000 = 3.5`. -/
theorem C6_affiliate_fee_cex :
    MayaChainIngestor.parse_swap 0 rawMaya = some swapMaya ∧
    swapMaya.out_asset = "MAYA.CACAO" ∧
    swapMaya.out_amount = 1000000000000 ∧
    swapMaya.in_price_usd = 1 ∧
    swapMaya.affiliate_fee_usd = 7 / 2 ∧
    swapMaya.out_amount / 10000000000 * swapMaya.in_price_usd = 100 ∧
    (7 / 2 : ℚ) ≠ 100 := by
  have hout : swapMaya.out_amount = 1000000000000 := by
    norm_num [swapMaya, MayaChainIngestor.build_swap, MayaChainIngestor.safe_float,
      show feeCoinMaya.amount = 1000000000000 from rfl]
  have hinp : swapMaya.in_price_usd = 1 := by
    norm_num [swapMaya, MayaChainIngestor.build_swap, MayaChainIngestor.safe_float,
      show rawMaya.meta.inPriceUSD = 1 from rfl]
  have hfee : swapMaya.affiliate_fee_usd = 7 / 2 := by
    norm_num [swapMaya, MayaChainIngestor.build_swap, MayaChainIngestor.safe_float,
      reconcile,
      show inCoinMaya.asset = "MAYA.CACAO" from rfl,
      show inCoinMaya.amount = 10000000000000 from rfl,
      show vinfoMaya.bps = 35 from rfl,
      show rawMaya.meta.inPriceUSD = 1 from rfl,
      show rawMaya.meta.outPriceUSD = 1 from rfl,
      show rawMaya.meta.swapSlip = 30 from rfl,
      show MayaChainIngestor.asset_decimals "MAYA.CACAO" = 10000000000 from by decide,
      show MayaChainIngestor.asset_decimals "ETH.ETH" = 100000000 from by decide,
      show swap_out_pair rawMaya.outList "MAYA.CACAO" = ("ETH.ETH", 99500000000) from
        by decide]
  refine ⟨by rfl, by decide, hout, hinp, hfee, ?_, by norm_num⟩
  rw [hout, hinp]
  norm_num

/-- C6 amended: THORChain derives `affiliate_fee_usd` preferentially from
the actual fee amount transferred to the affiliate output — converted at the
fetched RUNE price when the fee is paid in `THOR.RUNE`, else at the
provider's input/output unit price when the fee asset matches that leg — and
falls back to `bps/10000 * in_amount_usd` only for an unknown fee asset;
MayaChain, however, always computes `bps/10000 * in_amount_usd` and ignores
the transferred amount (`C6_affiliate_fee_cex`). -/
theorem C6_affiliate_fee_amended :
    (∀ (now : Int) (rp : ℚ) (raw : RawSwap) (s : Swap),
      THORChainIngestor.parse_swap now rp raw = some s →
      (s.out_asset = "THOR.RUNE" →
        s.affiliate_fee_usd = s.out_amount / 100000000 * rp) ∧
      (s.out_asset ≠ "THOR.RUNE" → s.out_asset = s.in_asset →
        s.affiliate_fee_usd = s.out_amount / 100000000 * s.in_price_usd) ∧
      (s.out_asset ≠ "THOR.RUNE" → s.out_asset ≠ s.in_asset →
        s.out_asset = (swap_out_pair raw.outList s.in_asset).1 →
        s.affiliate_fee_usd = s.out_amount / 100000000 * s.out_price_usd) ∧
      (s.out_asset ≠ "THOR.RUNE" → s.out_asset ≠ s.in_asset →
        s.out_asset ≠ (swap_out_pair raw.outList s.in_asset).1 →
        ∃ v, extract_vultisig_affiliate raw.meta.affiliateAddress raw.meta.memo = some v ∧
          s.affiliate_fee_usd = (v.bps : ℚ) / 10000 * s.in_amount_usd)) ∧
    (∀ (now : Int) (raw : RawSwap) (s : Swap),
      MayaChainIngestor.parse_swap now raw = some s →
      ∃ v, extract_vultisig_affiliate raw.meta.affiliateAddress raw.meta.memo = some v ∧
        s.affiliate_fee_usd = (v.bps : ℚ) / 10000 * s.in_amount_usd) := by
  constructor
  · intro now rp raw s h
    obtain ⟨a, b, v, f, fc, -, -, hv, -, -, hs⟩ := thor_parse_some h
    subst hs
    simp only [THORChainIngestor.build_swap]
    refine ⟨fun h1 => ?_, fun h1 h2 => ?_, fun h1 h2 h3 => ?_, fun h1 h2 h3 => ?_⟩
    · rw [if_pos h1]
    · rw [if_neg h1, if_pos h2]
    · simp only [THORChainIngestor.build_swap] at h3
      rw [if_neg h1, if_neg h2, if_pos h3]
    · simp only [THORChainIngestor.build_swap] at h3
      rw [if_neg h1, if_neg h2, if_neg h3]
      exact ⟨v, hv, rfl⟩
  · intro now raw s h
    obtain ⟨a, b, v, f, fc, -, -, hv, -, -, hs⟩ := maya_parse_some h
    subst hs
    exact ⟨v, hv, rfl⟩

/-- Witness for the amended C6: on `rawThor` the fee is collected in RUNE
and the stored affiliate fee USD is the transferred amount times the RUNE
price. -/
theorem C6_affiliate_fee_amended_witness :
    THORChainIngestor.parse_swap 0 2 rawThor = some swapThor ∧
    swapThor.out_asset = "THOR.RUNE" ∧
    swapThor.affiliate_fee_usd = swapThor.out_amount / 100000000 * 2 := by
  have hp : THORChainIngestor.parse_swap 0 2 rawThor = some swapThor := by rfl
  exact ⟨hp, by decide,
    (C6_affiliate_fee_amended.1 0 2 rawThor swapThor hp).1 (by decide)⟩

/-- Every GET issued by `make_request` carries the same constant timeout. -/
theorem make_request_timeout_const :
    ∀ (vana : Bool) (base : ℚ) (resps : List BaseIngestor.Resp) (retries : Nat) (t : ℚ),
      BaseIngestor.Ev.httpGet t ∈ (BaseIngestor.make_request_loop vana base resps retries).1 →
      t = BaseIngestor.REQUEST_TIMEOUT := by
  intro vana base resps
  induction resps with
  | nil =>
    intro retries t ht
    unfold BaseIngestor.make_request_loop at ht
    by_cases h : BaseIngestor.MAX_RETRIES ≤ retries
    · rw [if_pos h] at ht
      simp at ht
    · rw [if_neg h] at ht
      simp at ht
  | cons r rest ih =>
    intro retries t ht
    unfold BaseIngestor.make_request_loop at ht
    by_cases h : BaseIngestor.MAX_RETRIES ≤ retries
    · rw [if_pos h] at ht
      simp at ht
    · rw [if_neg h] at ht
      cases r with
      | timeout =>
        simp only [List.mem_cons] at ht
        rcases ht with h1 | h1 | h1
        · exact (BaseIngestor.Ev.httpGet.injEq ..).mp h1
        · exact absurd h1 (by simp)
        · exact ih (retries + 1) t h1
      | status code ra =>
        dsimp only at ht
        by_cases h429 : code = 429
        · rw [if_pos h429] at ht
          by_cases hmax : BaseIngestor.MAX_RETRIES ≤ retries + 1
          · rw [if_pos hmax] at ht
            simp only [List.mem_cons, List.not_mem_nil, or_false] at ht
            rcases ht with h1 | h1
            · exact (BaseIngestor.Ev.httpGet.injEq ..).mp h1
            · exact absurd h1 (by simp)
          · rw [if_neg hmax] at ht
            simp only [List.mem_cons] at ht
            rcases ht with h1 | h1 | h1
            · exact (BaseIngestor.Ev.httpGet.injEq ..).mp h1
            · exact absurd h1 (by simp)
            · exact ih (retries + 1) t h1
        · rw [if_neg h429] at ht
          by_cases h5xx : code = 502 ∨ code = 503 ∨ code = 504
          · rw [if_pos h5xx] at ht
            by_cases h2 : 2 ≤ retries + 1
            · rw [if_pos h2] at ht
              simp only [List.mem_cons, List.not_mem_nil, or_false] at ht
              exact (BaseIngestor.Ev.httpGet.injEq ..).mp ht
            · rw [if_neg h2] at ht
              simp only [List.mem_cons] at ht
              rcases ht with h1 | h1 | h1
              · exact (BaseIngestor.Ev.httpGet.injEq ..).mp h1
              · exact absurd h1 (by simp)
              · exact ih (retries + 1) t h1
          · rw [if_neg h5xx] at ht
            by_cases h400 : 400 ≤ code
            · rw [if_pos h400] at ht
              simp only [List.mem_cons, List.not_mem_nil, or_false] at ht
              exact (BaseIngestor.Ev.httpGet.injEq ..).mp ht
            · rw [if_neg h400] at ht
              by_cases hb : 0 < base
              · rw [if_pos hb] at ht
                simp only [List.mem_cons, List.not_mem_nil, or_false] at ht
                rcases ht with h1 | h1
                · exact (BaseIngestor.Ev.httpGet.injEq ..).mp h1
                · exact absurd h1 (by simp)
              · rw [if_neg hb] at ht
                simp only [List.mem_cons, List.not_mem_nil, or_false] at ht
                exact (BaseIngestor.Ev.httpGet.injEq ..).mp ht

/-- C7 fails as stated: the per-attempt timeout does not grow with the
retries. Two consecutive read timeouts issue three GETs whose timeouts are
all the constant `120` seconds — not a strictly growing sequence. -/
theorem C7_retry_cex :
    BaseIngestor.request_timeouts
        (BaseIngestor.make_request false 2
          [BaseIngestor.Resp.timeout, BaseIngestor.Resp.timeout,
           BaseIngestor.Resp.status 200 none]).1 = [120, 120, 120] ∧
    ¬ List.Chain' (fun a b : ℚ => a < b)
        (BaseIngestor.request_timeouts
          (BaseIngestor.make_request false 2
            [BaseIngestor.Resp.timeout, BaseIngestor.Resp.timeout,
             BaseIngestor.Resp.status 200 none]).1) := by
  have h : BaseIngestor.request_timeouts
      (BaseIngestor.make_request false 2
        [BaseIngestor.Resp.timeout, BaseIngestor.Resp.timeout,
         BaseIngestor.Resp.status 200 none]).1 = [120, 120, 120] := by
    norm_num [BaseIngestor.make_request, BaseIngestor.make_request_loop,
      BaseIngestor.request_timeouts, BaseIngestor.MAX_RETRIES,
      BaseIngestor.REQUEST_TIMEOUT, List.filterMap_cons, List.filterMap_nil]
  refine ⟨h, ?_⟩
  rw [h]
  intro hch
  rw [List.chain'_cons, List.chain'_cons] at hch
  exact absurd hch.1 (by norm_num)

/-- C7 amended: every GET uses the constant `REQUEST_TIMEOUT` of 120 s (the
per-attempt timeout never grows); HTTP 429 sleeps the `Retry-After` header
value when present — defaulting to `5` s when the header is absent, and
floored to `10` s for the vanaheimex endpoint — and counts against
`MAX_RETRIES`, failing once the counter reaches it; any 502/503/504 is
retried exactly once after a constant `base_delay * 2` sleep and a server
error on any later attempt fails the call (a ceiling of two attempts, not
`MAX_RETRIES`), letting the caller move to the next endpoint candidate; a
read timeout sleeps the exponential `base_delay * 2^attempt`, the call
failing after `MAX_RETRIES = 5` attempts; and every other HTTP error status
(any code `≥ 400` other than 429 and 502/503/504) propagates immediately
with no retry and no sleep. -/
theorem C7_retry_amended :
    (∀ (vana : Bool) (base : ℚ) (resps : List BaseIngestor.Resp) (retries : Nat) (t : ℚ),
      BaseIngestor.Ev.httpGet t ∈ (BaseIngestor.make_request_loop vana base resps retries).1 →
      t = BaseIngestor.REQUEST_TIMEOUT) ∧
    (∀ (vana : Bool) (base : ℚ) (code : Nat) (ra : Option Nat)
        (rest : List BaseIngestor.Resp) (retries : Nat),
      retries < BaseIngestor.MAX_RETRIES → 400 ≤ code → code ≠ 429 →
      code ≠ 502 → code ≠ 503 → code ≠ 504 →
      BaseIngestor.make_request_loop vana base
          (BaseIngestor.Resp.status code ra :: rest) retries =
        ([BaseIngestor.Ev.httpGet BaseIngestor.REQUEST_TIMEOUT],
         BaseIngestor.Outcome.error "HTTPError")) ∧
    (∀ (vana : Bool) (base : ℚ) (ra : Option Nat) (rest : List BaseIngestor.Resp)
        (retries : Nat),
      retries + 1 < BaseIngestor.MAX_RETRIES →
      BaseIngestor.make_request_loop vana base
          (BaseIngestor.Resp.status 429 ra :: rest) retries =
        (BaseIngestor.Ev.httpGet BaseIngestor.REQUEST_TIMEOUT ::
         BaseIngestor.Ev.sleep
           (if vana then max ((ra.getD 5 : Nat) : ℚ) 10 else ((ra.getD 5 : Nat) : ℚ)) ::
          (BaseIngestor.make_request_loop vana base rest (retries + 1)).1,
         (BaseIngestor.make_request_loop vana base rest (retries + 1)).2)) ∧
    (∀ (vana : Bool) (base : ℚ) (ra : Option Nat) (rest : List BaseIngestor.Resp),
      BaseIngestor.make_request_loop vana base
          (BaseIngestor.Resp.status 429 ra :: rest) 4 =
        ([BaseIngestor.Ev.httpGet BaseIngestor.REQUEST_TIMEOUT,
          BaseIngestor.Ev.sleep
            (if vana then max ((ra.getD 5 : Nat) : ℚ) 10 else ((ra.getD 5 : Nat) : ℚ))],
         BaseIngestor.Outcome.error "Max rate limit retries exceeded")) ∧
    (∀ (vana : Bool) (base : ℚ) (code : Nat) (ra : Option Nat)
        (rest : List BaseIngestor.Resp),
      code = 502 ∨ code = 503 ∨ code = 504 →
      BaseIngestor.make_request vana base (BaseIngestor.Resp.status code ra :: rest) =
        (BaseIngestor.Ev.httpGet BaseIngestor.REQUEST_TIMEOUT ::
         BaseIngestor.Ev.sleep (base * 2) ::
          (BaseIngestor.make_request_loop vana base rest 1).1,
         (BaseIngestor.make_request_loop vana base rest 1).2)) ∧
    (∀ (vana : Bool) (base : ℚ) (code : Nat) (ra : Option Nat)
        (rest : List BaseIngestor.Resp) (retries : Nat),
      1 ≤ retries → retries < BaseIngestor.MAX_RETRIES →
      code = 502 ∨ code = 503 ∨ code = 504 →
      BaseIngestor.make_request_loop vana base
          (BaseIngestor.Resp.status code ra :: rest) retries =
        ([BaseIngestor.Ev.httpGet BaseIngestor.REQUEST_TIMEOUT],
         BaseIngestor.Outcome.error "Server error")) ∧
    (∀ (vana : Bool) (base : ℚ) (rest : List BaseIngestor.Resp) (retries : Nat),
      retries < BaseIngestor.MAX_RETRIES →
      BaseIngestor.make_request_loop vana base
          (BaseIngestor.Resp.timeout :: rest) retries =
        (BaseIngestor.Ev.httpGet BaseIngestor.REQUEST_TIMEOUT ::
         BaseIngestor.Ev.sleep (base * 2 ^ (retries + 1)) ::
          (BaseIngestor.make_request_loop vana base rest (retries + 1)).1,
         (BaseIngestor.make_request_loop vana base rest (retries + 1)).2)) ∧
    (∀ (vana : Bool) (base : ℚ),
      (BaseIngestor.make_request vana base
        (List.replicate 5 BaseIngestor.Resp.timeout)).2 =
        BaseIngestor.Outcome.error "Max retries exceeded") := by
  refine ⟨make_request_timeout_const, ?_, ?_, ?_, ?_, ?_, ?_, ?_⟩
  · intro vana base code ra rest retries hlt h400 h429 h502 h503 h504
    have h5 : ¬(code = 502 ∨ code = 503 ∨ code = 504) := fun hc => by
      rcases hc with h | h | h
      exacts [h502 h, h503 h, h504 h]
    unfold BaseIngestor.make_request_loop
    rw [if_neg (Nat.not_le.mpr hlt)]
    dsimp only
    rw [if_neg h429, if_neg h5, if_pos h400]
  · intro vana base ra rest retries h2
    conv_lhs => unfold BaseIngestor.make_request_loop
    rw [if_neg (Nat.not_le.mpr (show retries < BaseIngestor.MAX_RETRIES by omega))]
    dsimp only
    rw [if_pos rfl, if_neg (Nat.not_le.mpr h2)]
  · intro vana base ra rest
    unfold BaseIngestor.make_request_loop
    rw [if_neg (by decide : ¬ BaseIngestor.MAX_RETRIES ≤ 4)]
    dsimp only
    rw [if_pos rfl, if_pos (by decide : BaseIngestor.MAX_RETRIES ≤ 4 + 1)]
  · intro vana base code ra rest h5
    have h429 : ¬ code = 429 := by rcases h5 with h | h | h <;> omega
    unfold BaseIngestor.make_request
    conv_lhs => unfold BaseIngestor.make_request_loop
    rw [if_neg (by decide : ¬ BaseIngestor.MAX_RETRIES ≤ 0)]
    dsimp only
    rw [if_neg h429, if_pos h5, if_neg (by decide : ¬ 2 ≤ 0 + 1)]
  · intro vana base code ra rest retries h1 hlt h5
    have h429 : ¬ code = 429 := by rcases h5 with h | h | h <;> omega
    unfold BaseIngestor.make_request_loop
    rw [if_neg (Nat.not_le.mpr hlt)]
    dsimp only
    rw [if_neg h429, if_pos h5, if_pos (show 2 ≤ retries + 1 by omega)]
  · intro vana base rest retries hlt
    conv_lhs => unfold BaseIngestor.make_request_loop
    rw [if_neg (Nat.not_le.mpr hlt)]
  · intro vana base
    norm_num [BaseIngestor.make_request, BaseIngestor.make_request_loop,
      BaseIngestor.MAX_RETRIES, List.replicate]

/-- Witness for the amended C7: the single GET of an immediately-propagated
404 carries the constant timeout. -/
theorem C7_retry_amended_witness :
    BaseIngestor.Ev.httpGet (120 : ℚ) ∈
      (BaseIngestor.make_request_loop false 2 [BaseIngestor.Resp.status 404 none] 0).1 ∧
    (120 : ℚ) = BaseIngestor.REQUEST_TIMEOUT :=
  ⟨by decide,
   C7_retry_amended.1 false 2 [BaseIngestor.Resp.status 404 none] 0 120 (by decide)⟩

/-- What the THORChain endpoint loop guarantees over an arbitrary candidate
list: failure means every candidate failed, success decomposes the list at
the winner with all earlier candidates failing, and the winner is recorded
in the stored index. -/
theorem thor_fetch_loop_spec (up : Nat → Bool) :
    ∀ (l : List Nat) (cur : Nat),
      ((THORChainIngestor.fetch_loop up l cur).2.1 = none ↔ ∀ i ∈ l, up i = false) ∧
      (∀ w, (THORChainIngestor.fetch_loop up l cur).2.1 = some w →
        up w = true ∧ (THORChainIngestor.fetch_loop up l cur).2.2 = w ∧
        ∃ l1 l2, l = l1 ++ w :: l2 ∧ ∀ j ∈ l1, up j = false) := by
  intro l
  induction l with
  | nil =>
    intro cur
    refine ⟨by simp [THORChainIngestor.fetch_loop], ?_⟩
    intro w hw
    simp [THORChainIngestor.fetch_loop] at hw
  | cons i rest ih =>
    intro cur
    by_cases hui : up i
    · constructor
      · simp [THORChainIngestor.fetch_loop, hui]
      · intro w hw
        simp only [THORChainIngestor.fetch_loop, if_pos hui] at hw ⊢
        obtain rfl := Option.some.inj hw
        exact ⟨hui, rfl, [], rest, rfl, by simp⟩
    · constructor
      · simp only [THORChainIngestor.fetch_loop, if_neg hui]
        rw [((ih cur).1)]
        constructor
        · intro hall j hj
          rcases List.mem_cons.mp hj with rfl | hj
          · exact Bool.eq_false_iff.mpr hui
          · exact hall j hj
        · intro hall j hj
          exact hall j (List.mem_cons_of_mem i hj)
      · intro w hw
        simp only [THORChainIngestor.fetch_loop, if_neg hui] at hw ⊢
        obtain ⟨hup, hsnd, l1, l2, hdec, hfail⟩ := (ih cur).2 w hw
        refine ⟨hup, hsnd, i :: l1, l2, by rw [hdec]; rfl, ?_⟩
        intro j hj
        rcases List.mem_cons.mp hj with rfl | hj
        · exact Bool.eq_false_iff.mpr hui
        · exact hfail j hj

/-- A decomposition of `range n` at an element pins the prefix down as
`range` of that element. -/
theorem range_decomp {n w : Nat} {l1 l2 : List Nat}
    (h : List.range n = l1 ++ w :: l2) : l1 = List.range w := by
  have hlen : l1.length + (l2.length + 1) = n := by
    have hc := congrArg List.length h
    simpa [List.length_append, Nat.add_assoc] using hc.symm
  have hlt : l1.length < n := by omega
  have hw : w = l1.length := by
    have hg := List.getElem_of_append h rfl
    rw [List.getElem_range l1.length (by simpa using hlt)] at hg
    exact hg.symm
  calc l1 = (List.range n).take l1.length := by rw [h]; exact (List.take_left l1 _).symm
    _ = List.range (min l1.length n) := List.take_range _ _
    _ = List.range w := by rw [min_eq_left hlt.le, hw]

/-- On success the MayaChain endpoint loop reports the winner and stores it
as the new current index. -/
theorem maya_fetch_loop_some (up : Nat → Bool) (n : Nat) :
    ∀ (k cur w : Nat), (MayaChainIngestor.fetch_loop up n cur k).2.1 = some w →
      up w = true ∧ (MayaChainIngestor.fetch_loop up n cur k).2.2 = w := by
  intro k
  induction k with
  | zero =>
    intro cur w hw
    simp [MayaChainIngestor.fetch_loop] at hw
  | succ m ih =>
    intro cur w hw
    by_cases hup : up cur
    · simp only [MayaChainIngestor.fetch_loop, if_pos hup] at hw ⊢
      obtain rfl := Option.some.inj hw
      exact ⟨hup, rfl⟩
    · simp only [MayaChainIngestor.fetch_loop, if_neg hup] at hw ⊢
      exact ih ((cur + 1) % n) w hw

/-- When the MayaChain endpoint loop exhausts its attempts, every index it
visited — `cur, cur+1, …` modulo `n` — failed. -/
theorem maya_fetch_loop_none (up : Nat → Bool) (n : Nat) (hn : 0 < n) :
    ∀ (k cur : Nat), cur < n →
      (MayaChainIngestor.fetch_loop up n cur k).2.1 = none →
      ∀ m < k, up ((cur + m) % n) = false := by
  intro k
  induction k with
  | zero => intro cur _ _ m hm; omega
  | succ j ih =>
    intro cur hcur hw m hm
    by_cases hup : up cur
    · simp [MayaChainIngestor.fetch_loop, if_pos hup] at hw
    · simp only [MayaChainIngestor.fetch_loop, if_neg hup] at hw
      match m with
      | 0 =>
        rw [Nat.add_zero, Nat.mod_eq_of_lt hcur]
        exact Bool.eq_false_iff.mpr hup
      | m + 1 =>
        have hrec := ih ((cur + 1) % n) (Nat.mod_lt _ hn) hw m (by omega)
        rw [Nat.mod_add_mod] at hrec
        rw [show cur + (m + 1) = cur + 1 + m by omega]
        exact hrec

/-- C8 fails as stated for THORChain: after a call won on endpoint 1 (and
recorded it), the next call still tries endpoint 0 first — the remembered
winner is not the preferred first choice. MayaChain is sticky
(`C8_sticky_amended`). -/
theorem C8_sticky_cex :
    (THORChainIngestor.fetch_data 4 0 (fun i => i == 1)).2 = (some 1, 1) ∧
    (THORChainIngestor.fetch_data 4 1 (fun _ => true)).1.head? = some 0 ∧
    some 0 ≠ some (1 : Nat) := by decide

/-- C8 amended: both `fetch_data` loops try their candidates in order and
fail only when every candidate has failed; MayaChain starts from the stored
index, records the winner there, and the next call tries the winner first
(sticky fallback); THORChain records the winner in
`current_endpoint_index` too, but its loop always starts again from the
first configured endpoint, so the winner is not the next call's first
choice (`C8_sticky_cex`). -/
theorem C8_sticky_amended :
    (∀ (n cur : Nat) (up : Nat → Bool),
      ((THORChainIngestor.fetch_data n cur up).2.1 = none ↔ ∀ i < n, up i = false)) ∧
    (∀ (n cur : Nat) (up : Nat → Bool) (w : Nat),
      (THORChainIngestor.fetch_data n cur up).2.1 = some w →
      up w = true ∧ (THORChainIngestor.fetch_data n cur up).2.2 = w ∧
      ∀ j < w, up j = false) ∧
    (∀ (n cur : Nat) (up : Nat → Bool), 0 < n →
      (THORChainIngestor.fetch_data n cur up).1.head? = some 0) ∧
    (∀ (n cur : Nat) (up up2 : Nat → Bool) (w : Nat),
      (MayaChainIngestor.fetch_data n cur up).2.1 = some w →
      up w = true ∧ (MayaChainIngestor.fetch_data n cur up).2.2 = w ∧
      (0 < n → (MayaChainIngestor.fetch_data n w up2).1.head? = some w)) ∧
    (∀ (n cur : Nat) (up : Nat → Bool), cur < n →
      (MayaChainIngestor.fetch_data n cur up).2.1 = none → ∀ i < n, up i = false) := by
  refine ⟨?_, ?_, ?_, ?_, ?_⟩
  · intro n cur up
    unfold THORChainIngestor.fetch_data
    rw [(thor_fetch_loop_spec up (List.range n) cur).1]
    constructor
    · intro hall i hi
      exact hall i (List.mem_range.mpr hi)
    · intro hall i hi
      exact hall i (List.mem_range.mp hi)
  · intro n cur up w hw
    obtain ⟨hup, hsnd, l1, l2, hdec, hfail⟩ :=
      (thor_fetch_loop_spec up (List.range n) cur).2 w hw
    refine ⟨hup, hsnd, ?_⟩
    intro j hj
    have hl1 : l1 = List.range w := range_decomp hdec
    exact hfail j (hl1 ▸ List.mem_range.mpr hj)
  · intro n cur up hn
    obtain ⟨m, rfl⟩ := Nat.exists_eq_add_of_lt hn
    rw [show 0 + m + 1 = m + 1 by omega, THORChainIngestor.fetch_data,
      List.range_succ_eq_map]
    by_cases h0 : up 0
    · simp [THORChainIngestor.fetch_loop, h0]
    · simp [THORChainIngestor.fetch_loop, h0]
  · intro n cur up up2 w hw
    obtain ⟨hup, hsnd⟩ := maya_fetch_loop_some up n n cur w hw
    refine ⟨hup, hsnd, ?_⟩
    intro hn
    obtain ⟨m, rfl⟩ := Nat.exists_eq_add_of_lt hn
    rw [MayaChainIngestor.fetch_data]
    by_cases h0 : up2 w
    · simp [MayaChainIngestor.fetch_loop, h0]
    · simp [MayaChainIngestor.fetch_loop, h0]
  · intro n cur up hcur hw i hi
    have hm : (i + n - cur) % n < n := Nat.mod_lt _ (by omega)
    have h := maya_fetch_loop_none up n (by omega) n cur hcur hw
      ((i + n - cur) % n) hm
    rw [Nat.add_mod_mod, show cur + (i + n - cur) = i + n by omega,
      Nat.add_mod_right, Nat.mod_eq_of_lt hi] at h
    exact h

/-- Witness for the amended C8: MayaChain wins on endpoint 1 from stored
index 0, records it, and the next call tries endpoint 1 first. -/
theorem C8_sticky_amended_witness :
    (MayaChainIngestor.fetch_data 2 0 (fun i => i == 1)).2.1 = some 1 ∧
    (MayaChainIngestor.fetch_data 2 0 (fun i => i == 1)).2.2 = 1 ∧
    (MayaChainIngestor.fetch_data 2 1 (fun _ => true)).1.head? = some 1 := by
  have h := C8_sticky_amended.2.2.2.1 2 0 (fun i => i == 1) (fun _ => true) 1 (by decide)
  exact ⟨by decide, h.2.1, h.2.2 (by decide)⟩

/-- C9 fails as stated: on `rawThor` (1 BTC in base units `1e8`) the stored
`in_amount` is the raw base-unit value `1e8`, not the human-readable `1`;
and the stored `out_asset`/`out_amount` are the affiliate fee leg
(`THOR.RUNE`, the fee amount), not the swap's actual output leg
(`ETH.ETH`). -/
theorem C9_amounts_cex :
    THORChainIngestor.parse_swap 0 2 rawThor = some swapThor ∧
    swapThor.in_asset = "BTC.BTC" ∧
    swapThor.in_amount = 100000000 ∧ (100000000 : ℚ) ≠ 1 ∧
    (swap_out_pair rawThor.outList "BTC.BTC").1 = "ETH.ETH" ∧
    swapThor.out_asset = "THOR.RUNE" ∧ ("THOR.RUNE" : String) ≠ "ETH.ETH" :=
  ⟨by rfl, by decide, by decide, by decide, by decide, by decide, by decide⟩

/-- C9 amended: only the bridge parser stores decimal-adjusted amounts. LiFi
scales each leg by its own token's `decimals` and its `in/out` fields match
the named assets; the THORChain and MayaChain parsers store the raw
base-unit amounts unscaled (MayaChain only clamped by `safe_float`), scale
exclusively inside the USD fields, and store the affiliate fee output —
`fee_asset` and `fee_amount` — in `out_asset`/`out_amount` instead of the
swap's output leg (`C9_amounts_cex`). -/
theorem C9_amounts_amended :
    (∀ (now : Int) (rp : ℚ) (raw : RawSwap) (s : Swap),
      THORChainIngestor.parse_swap now rp raw = some s →
      ∃ a b f fc, raw.inList.head? = some a ∧ a.coins.head? = some b ∧
        s.in_asset = b.asset ∧ s.in_amount = b.amount ∧
        find_affiliate_output raw.outList = some f ∧ f.coins.head? = some fc ∧
        s.out_asset = fc.asset ∧ s.out_amount = fc.amount) ∧
    (∀ (now : Int) (raw : RawSwap) (s : Swap),
      MayaChainIngestor.parse_swap now raw = some s →
      ∃ a b f fc, raw.inList.head? = some a ∧ a.coins.head? = some b ∧
        s.in_asset = b.asset ∧ s.in_amount = MayaChainIngestor.safe_float b.amount ∧
        find_affiliate_output raw.outList = some f ∧ f.coins.head? = some fc ∧
        s.out_asset = fc.asset ∧ s.out_amount = MayaChainIngestor.safe_float fc.amount) ∧
    (∀ (now : Int) (raw : LiFiIngestor.LifiRaw) (s : Swap),
      LiFiIngestor.parse_swap now raw = some s →
      s.in_asset = raw.sending.token.symbol ++ "-" ++ raw.sending.token.chainId ∧
      s.out_asset = raw.receiving.token.symbol ++ "-" ++ raw.receiving.token.chainId ∧
      (0 < raw.sending.token.decimals →
        s.in_amount = LiFiIngestor.safe_float raw.sending.amount /
          10 ^ raw.sending.token.decimals.toNat) ∧
      (0 < raw.receiving.token.decimals →
        s.out_amount = LiFiIngestor.safe_float raw.receiving.amount /
          10 ^ raw.receiving.token.decimals.toNat)) := by
  refine ⟨?_, ?_, ?_⟩
  · intro now rp raw s h
    obtain ⟨a, b, v, f, fc, ha, hb, -, hf, hfc, hs⟩ := thor_parse_some h
    subst hs
    exact ⟨a, b, f, fc, ha, hb, rfl, rfl, hf, hfc, rfl, rfl⟩
  · intro now raw s h
    obtain ⟨a, b, v, f, fc, ha, hb, -, hf, hfc, hs⟩ := maya_parse_some h
    subst hs
    exact ⟨a, b, f, fc, ha, hb, rfl, rfl, hf, hfc, rfl, rfl⟩
  · intro now raw s h
    have hs := Option.some.inj h
    subst hs
    refine ⟨rfl, rfl, fun hd => ?_, fun hd => ?_⟩
    · exact if_pos hd
    · exact if_pos hd

/-- Witness for the amended C9 on the concrete LiFi transfer `rawLifi`:
the sending token has 18 decimals and the stored input amount is the raw
amount scaled down by `10^18`. -/
theorem C9_amounts_amended_witness :
    (0 : Int) < rawLifi.sending.token.decimals ∧
    Option.map Swap.in_amount (LiFiIngestor.parse_swap 0 rawLifi) =
      some (LiFiIngestor.safe_float rawLifi.sending.amount /
        10 ^ rawLifi.sending.token.decimals.toNat) := by
  have h := C9_amounts_amended.2.2 0 rawLifi _ rfl
  have h3 := h.2.2.1 (by decide)
  exact ⟨by decide, congrArg some h3⟩

end Ingest
